import Mathlib

/-!
Shallow embedding of the photoprism-helper batch operation engine
(`src/unnamed/part_000`, a popup script) and its instance-scoped storage
utilities (`src/storage-utils.js`).

Modelling conventions:
* Per-item HTTP calls are abstracted by the HTTP status code the remote
  service answers with (`Env.itemStatus`); body parsing is abstracted away.
* The concurrent fan-out of `batchProcess` is sequentialised in list order;
  the aggregate counters are order-independent, which is what the claims
  are about.
* All clock readings of one invocation (`Date.now()`, ISO timestamps) are
  abstracted to a single natural number `now`.
* The instance-scoped persistent storage used by the popup is modelled as
  the in-memory `Store` record (storage assumed reachable); the
  storage-utils error paths themselves are modelled separately by
  `getInstanceData` / `setInstanceData`.
-/

namespace PhotoprismHelper

/-! ### JavaScript string primitives

Executable embeddings of `String.prototype.trim`,
`String.prototype.toLowerCase` and the default `Array.prototype.sort`
comparison (lexicographic by code unit); defined over `String.data` so
that every definition evaluates inside the kernel. -/

/-- `s.trim()`: strip leading and trailing whitespace. -/
def jsTrim (s : String) : String :=
  ⟨((s.data.dropWhile Char.isWhitespace).reverse.dropWhile
      Char.isWhitespace).reverse⟩

/-- `s.toLowerCase()`. -/
def jsToLower (s : String) : String :=
  ⟨s.data.map Char.toLower⟩

/-- Lexicographic comparison of char lists by code point, the order used
by `Array.prototype.sort()` on strings. -/
def charListLe : List Char → List Char → Bool
  | [], _ => true
  | _ :: _, [] => false
  | a :: as, b :: bs =>
    if a.toNat < b.toNat then true
    else if b.toNat < a.toNat then false
    else charListLe as bs

/-- String comparison used by `allLabels.sort()`. -/
def jsLe (a b : String) : Bool :=
  charListLe a.data b.data

/-- Insertion of one element into a sorted list. -/
def insertSorted (a : String) : List String → List String
  | [] => [a]
  | b :: bs => if jsLe a b then a :: b :: bs else b :: insertSorted a bs

/-- `array.sort()`: the sorted permutation of the list. -/
def jsSort : List String → List String
  | [] => []
  | a :: as => insertSorted a (jsSort as)

/-! ### storage-utils.js -/

/-- `instanceId.replace(/[^a-zA-Z0-9]/g, '_')` applied to one character. -/
def sanitizeChar (c : Char) : Char :=
  if c.isAlphanum then c else '_'

/-- `createInstanceKey(baseKey, instanceId)` from storage-utils.js. -/
def createInstanceKey (baseKey instanceId : String) : String :=
  baseKey ++ "_" ++ (instanceId.map sanitizeChar)

/-- `getInstanceData(baseKey, defaultValue)`: resolves the instance id and
reads the composite key.  The `catch` block of the source logs the error
and returns `defaultValue`.  `instanceId` is the outcome of
`getCurrentInstanceId()` and `storage` the state of `chrome.storage.local`. -/
def getInstanceData {α : Type} (baseKey : String) (defaultValue : α)
    (instanceId : Except String String) (storage : String → Option α) : α :=
  match instanceId with
  | .error _ => defaultValue
  | .ok iid =>
    match storage (createInstanceKey baseKey iid) with
    | some v => v
    | none => defaultValue

/-- `setInstanceData(baseKey, value)`: resolves the instance id and writes the
composite key; the `catch` block of the source re-throws the error. -/
def setInstanceData {α : Type} (baseKey : String) (value : α)
    (instanceId : Except String String) (storage : String → Option α) :
    Except String (String → Option α) :=
  match instanceId with
  | .error e => .error e
  | .ok iid =>
    .ok fun k => if k = createInstanceKey baseKey iid then some value else storage k

/-! ### Data model of the popup script -/

/-- One entry of the `Labels` array of a photo-detail response:
`{Label: {Name, Slug, ID}}`. -/
structure PhotoLabel where
  name : String
  slug : String
  id : Nat
deriving Repr, DecidableEq

/-- Return value of `batchProcess`. -/
structure BatchResult where
  successCount : Nat
  failedCount : Nat
  failedUids : List String
deriving Repr, DecidableEq

/-- One element of the `failedOperations` store. -/
structure FailedOperation where
  action : String
  labelName : String
  failedUids : List String
  timestamp : Nat
  retryCount : Nat
deriving Repr, DecidableEq

/-- One element of the `executionHistory` store (an execution result plus
the id assigned by `saveExecutionResult`). -/
structure ExecutionRecord where
  id : String
  action : String
  labelName : String
  totalCount : Nat
  successCount : Nat
  failedCount : Nat
  failedUids : List String
  startTime : Nat
  duration : Nat
  error : Option String
  isRetry : Bool
deriving Repr, DecidableEq

/-- The instance-scoped stores owned by the engine. -/
structure Store where
  labelCache : List (String × Nat)
  recentLabels : List String
  allLabels : List String
  executionHistory : List ExecutionRecord
  failedOperations : List FailedOperation
deriving Repr, DecidableEq

/-- Environment of one invocation: the outcome of `getPhotoPrismData()`
(the uids; the token is irrelevant to the control flow), the outcome of a
photo-detail fetch per uid, and the HTTP status of each per-item call. -/
structure Env where
  dataSource : Except String (List String)
  photoFetch : String → Except String (List PhotoLabel)
  itemStatus : String → Nat

/-- Result of one popup entry point: the updated stores plus the list of
uids for which a per-item label call was actually issued. -/
structure ActionOut where
  store : Store
  calls : List String

/-! ### Per-item API calls -/

/-- `response.ok` of the fetch API: status in 200..299. -/
def httpOk (status : Nat) : Bool :=
  200 ≤ status && status < 300

/-- Outcome of `addLabel(uid, labelName, token)` as a function of the HTTP
status: `if (!response.ok) throw`. -/
def addLabel (status : Nat) : Except String Unit :=
  if httpOk status then .ok () else .error "API Error"

/-- Outcome of `removeLabel(uid, labelId, token)` as a function of the HTTP
status: `if (!response.ok && response.status !== 404) throw` — a 404
("label not on photo") is deliberately ignored. -/
def removeLabel (status : Nat) : Except String Unit :=
  if !httpOk status && status != 404 then .error "API Error" else .ok ()

/-- `true` iff an `Except` value is a success. -/
def exceptOk {ε α : Type} : Except ε α → Bool
  | .ok _ => true
  | .error _ => false

/-! ### Batch dispatcher (`batchProcess`) -/

/-- Accumulation of one settled per-item call: success bumps
`successCount`; a rejection bumps `failedCount` and pushes the uid onto
`failedUids`. -/
def batchStep (apiFn : String → Except String Unit) (acc : BatchResult)
    (uid : String) : BatchResult :=
  match apiFn uid with
  | .ok _ => { acc with successCount := acc.successCount + 1 }
  | .error _ =>
    { acc with
      failedCount := acc.failedCount + 1
      failedUids := acc.failedUids ++ [uid] }

/-- `batchProcess(uids, apiFn)`: every uid's call is dispatched and every
settled outcome is accumulated; no failure aborts the remaining calls. -/
def batchProcess (uids : List String) (apiFn : String → Except String Unit) :
    BatchResult :=
  uids.foldl (batchStep apiFn) ⟨0, 0, []⟩

/-! ### Label resolver (`getLabelId`) -/

/-- Lookup of `labelCache[labelName]` (a case-sensitive property access). -/
def lookupCache (cache : List (String × Nat)) (name : String) : Option Nat :=
  (cache.find? fun p => p.1 == name).map (·.2)

/-- `labelCache[labelName] = labelId`: overwrite an existing property or
append a new one. -/
def setCache (cache : List (String × Nat)) (name : String) (labelId : Nat) :
    List (String × Nat) :=
  if cache.any (fun p => p.1 == name) then
    cache.map fun p => if p.1 == name then (name, labelId) else p
  else
    cache ++ [(name, labelId)]

/-- Successful outcome of `getLabelId`: the id, the updated cache, and
whether a network fetch of the photo detail was needed. -/
structure Resolved where
  labelId : Nat
  cache : List (String × Nat)
  fetched : Bool
deriving Repr, DecidableEq

/-- Cache-miss branch of `getLabelId`: fetch the detail of `firstUid`,
search its label list case-insensitively by name or slug, cache the id. -/
def getLabelIdFetch (labelName firstUid : String)
    (cache : List (String × Nat))
    (photoFetch : String → Except String (List PhotoLabel)) :
    Except String Resolved :=
  match photoFetch firstUid with
  | .error e => .error ("Failed to get label ID: " ++ e)
  | .ok labels =>
    match labels.find? (fun l =>
        jsToLower l.name == jsToLower labelName ||
        jsToLower l.slug == jsToLower labelName) with
    | none =>
      .error ("Failed to get label ID: Label \"" ++ labelName ++
        "\" not found on the photo, cannot determine its ID.")
    | some l => .ok ⟨l.id, setCache cache labelName l.id, true⟩

/-- `getLabelId(labelName, firstUid, token)`: `if (labelCache[labelName])`
— a truthy (present and nonzero) cached value is returned without any
fetch; otherwise the detail of `firstUid` is fetched. -/
def getLabelId (labelName firstUid : String) (cache : List (String × Nat))
    (photoFetch : String → Except String (List PhotoLabel)) :
    Except String Resolved :=
  match lookupCache cache labelName with
  | some labelId =>
    if labelId = 0 then getLabelIdFetch labelName firstUid cache photoFetch
    else .ok ⟨labelId, cache, false⟩
  | none => getLabelIdFetch labelName firstUid cache photoFetch

/-! ### Recent-labels management (`addToRecentLabels`) -/

/-- `addToRecentLabels(labelName)`: normalises to trimmed lowercase,
moves the entry to the front of `recentLabels` (case-insensitive dedup,
capped at 20) and inserts it into the sorted `allLabels` when absent
(case-insensitive).  Returns the two updated lists. -/
def addToRecentLabels (labelName : String) (recentLabels allLabels : List String) :
    List String × List String :=
  if (jsTrim labelName).isEmpty then (recentLabels, allLabels)
  else
    let normalizedLabel := jsToLower (jsTrim labelName)
    let recent1 := recentLabels.filter fun l => jsToLower l != normalizedLabel
    let recent2 := (normalizedLabel :: recent1).take 20
    let all2 :=
      if allLabels.any (fun l => jsToLower l == normalizedLabel) then allLabels
      else jsSort (allLabels ++ [normalizedLabel])
    (recent2, all2)

/-! ### Failure tracker -/

/-- The `(action, lowercase(labelName))` key of a failure group. -/
def fopKey (op : FailedOperation) : String × String :=
  (op.action, jsToLower op.labelName)

/-- `removeFailedOperation(action, labelName)`: drops every group matching
the key case-insensitively. -/
def removeFailedOperation (action labelName : String)
    (failedOperations : List FailedOperation) : List FailedOperation :=
  failedOperations.filter fun op =>
    !(jsToLower op.labelName == jsToLower labelName && op.action == action)

/-- The `findIndex` predicate of `saveFailedOperation`: same action and
case-insensitively equal label name. -/
def sameKeyAs (failedOperation op : FailedOperation) : Bool :=
  jsToLower op.labelName == jsToLower failedOperation.labelName &&
  op.action == failedOperation.action

/-- `saveFailedOperation(failedOperation)`: replaces the first group with
the same `(action, lowercase(labelName))` key wholesale, or unshifts a new
group; then truncates to 20 groups. -/
def saveFailedOperation (failedOperation : FailedOperation)
    (failedOperations : List FailedOperation) : List FailedOperation :=
  match failedOperations.findIdx? (sameKeyAs failedOperation) with
  | some existingIndex =>
    (failedOperations.set existingIndex failedOperation).take 20
  | none => (failedOperation :: failedOperations).take 20

/-! ### Execution recorder (`saveExecutionResult`) -/

/-- `saveExecutionResult(executionResult)`: assigns
`id = Date.now().toString()`, unshifts the record and truncates the
history to the 50 most recent records. -/
def saveExecutionResult (executionResult : ExecutionRecord) (now : Nat)
    (executionHistory : List ExecutionRecord) : List ExecutionRecord :=
  ({ executionResult with id := toString now } :: executionHistory).take 50

/-! ### Main handler (`handleAction`) -/

/-- The per-item call of an action: `addLabel` posts by name, `removeLabel`
deletes by the resolved id; either way the outcome depends only on the
HTTP status of the uid's call. -/
def actionApi (action : String) (env : Env) : String → Except String Unit :=
  if action == "add" then fun uid => addLabel (env.itemStatus uid)
  else fun uid => removeLabel (env.itemStatus uid)

/-- The record saved by `handleAction`'s catch block: counters still at
their initial zeros, `error` populated. -/
def errorRecord (action labelName : String) (totalCount : Nat) (e : String)
    (now : Nat) : ExecutionRecord :=
  { id := "", action := action, labelName := labelName,
    totalCount := totalCount, successCount := 0, failedCount := 0,
    failedUids := [], startTime := now, duration := 0, error := some e,
    isRetry := false }

/-- The tail of `handleAction`'s try block once the batch has settled:
record the result, update or clear the failure group, refresh the
recent/all label lists. -/
def handleActionFinish (st : Store) (action labelName : String)
    (uids : List String) (result : BatchResult) (now : Nat) : ActionOut :=
  let executionResult : ExecutionRecord :=
    { id := "", action := action, labelName := labelName,
      totalCount := uids.length, successCount := result.successCount,
      failedCount := result.failedCount, failedUids := result.failedUids,
      startTime := now, duration := 0, error := none, isRetry := false }
  let hist := saveExecutionResult executionResult now st.executionHistory
  let fops :=
    if result.failedUids.length > 0 then
      saveFailedOperation
        { action := action, labelName := labelName,
          failedUids := result.failedUids, timestamp := now, retryCount := 0 }
        st.failedOperations
    else
      removeFailedOperation action (jsToLower labelName) st.failedOperations
  let ra := addToRecentLabels labelName st.recentLabels st.allLabels
  ⟨{ st with
      executionHistory := hist
      failedOperations := fops
      recentLabels := ra.1
      allLabels := ra.2 }, uids⟩

/-- Error exit of `handleAction`: the catch block records the failure (no
other store is touched) and no per-item call was issued past the point of
the throw. -/
def handleActionError (st : Store) (action labelName : String)
    (totalCount : Nat) (e : String) (now : Nat) : ActionOut :=
  ⟨{ st with
      executionHistory :=
        (saveExecutionResult (errorRecord action labelName totalCount e now)
          now st.executionHistory) }, []⟩

/-- `handleAction(action)`: trims the entered label, obtains
`{uids, token}` from the data source, dispatches the batch ("remove"
first resolves the label id from the batch's first uid), then records the
outcome and updates the failure tracker and label lists.  Any throw lands
in the catch block, which records the error. -/
def handleAction (action rawLabel : String) (now : Nat) (env : Env)
    (st : Store) : ActionOut :=
  let labelName := jsTrim rawLabel
  if labelName.isEmpty then ⟨st, []⟩
  else
    match env.dataSource with
    | .error e => handleActionError st action labelName 0 e now
    | .ok uids =>
      match uids with
      | [] =>
        handleActionError st action labelName 0
          "No photos selected. Please select photos in PhotoPrism first." now
      | firstUid :: _ =>
        if action == "add" then
          handleActionFinish st action labelName uids
            (batchProcess uids (actionApi action env)) now
        else if action == "remove" then
          match getLabelId labelName firstUid st.labelCache env.photoFetch with
          | .error e => handleActionError st action labelName uids.length e now
          | .ok res =>
            handleActionFinish { st with labelCache := res.cache } action
              labelName uids (batchProcess uids (actionApi action env)) now
        else
          handleActionError st action labelName uids.length
            "TypeError: result is undefined" now

/-! ### Retry of a failure group (`retryFailedOperation`) -/

/-- The record saved by `retryFailedOperation`'s finally block when the
try block threw before the batch settled: counters still zero, `error`
populated, `isRetry` true. -/
def retryErrorRecord (operation : FailedOperation) (e : String) (now : Nat) :
    ExecutionRecord :=
  { id := "", action := operation.action, labelName := operation.labelName,
    totalCount := operation.failedUids.length, successCount := 0,
    failedCount := 0, failedUids := [], startTime := now, duration := 0,
    error := some e, isRetry := true }

/-- Error exit of `retryFailedOperation`: the finally block still records
the attempt; the failure-group store is untouched. -/
def retryError (st : Store) (operation : FailedOperation) (e : String)
    (now : Nat) : ActionOut :=
  ⟨{ st with
      executionHistory :=
        (saveExecutionResult (retryErrorRecord operation e now) now
          st.executionHistory) }, []⟩

/-- Tail of `retryFailedOperation` once the batch has settled: a fully
successful retry splices the group out; a partial one updates the group's
`failedUids`, bumps `retryCount` and refreshes `timestamp`; the finally
block records the retry with `isRetry = true`. -/
def retryFinish (st : Store) (index : Nat) (operation : FailedOperation)
    (result : BatchResult) (now : Nat) (calls : List String) : ActionOut :=
  let ops := st.failedOperations
  let ops' :=
    if result.failedUids.isEmpty then ops.eraseIdx index
    else
      ops.set index
        { operation with
            failedUids := result.failedUids
            retryCount := operation.retryCount + 1
            timestamp := now }
  let retryResult : ExecutionRecord :=
    { id := "", action := operation.action, labelName := operation.labelName,
      totalCount := operation.failedUids.length,
      successCount := result.successCount, failedCount := result.failedCount,
      failedUids := result.failedUids, startTime := now, duration := 0,
      error := none, isRetry := true }
  ⟨{ st with
      failedOperations := ops'
      executionHistory :=
        (saveExecutionResult retryResult now st.executionHistory) }, calls⟩

/-- `retryFailedOperation(index)`: re-runs the batch over exactly the
indexed group's `failedUids` ("remove" re-resolves the label id from the
first failed uid); out-of-range indices and empty groups return without
effect; a throw before the batch settles leaves the failure groups
untouched but is still recorded by the finally block. -/
def retryFailedOperation (index : Nat) (now : Nat) (env : Env) (st : Store) :
    ActionOut :=
  match st.failedOperations[index]? with
  | none => ⟨st, []⟩
  | some operation =>
    if operation.failedUids.isEmpty then ⟨st, []⟩
    else
      match env.dataSource with
      | .error e => retryError st operation e now
      | .ok _ =>
        if operation.action == "add" then
          retryFinish st index operation
            (batchProcess operation.failedUids (actionApi operation.action env))
            now operation.failedUids
        else if operation.action == "remove" then
          match operation.failedUids with
          | [] => ⟨st, []⟩
          | fu :: _ =>
            match getLabelId operation.labelName fu st.labelCache
                env.photoFetch with
            | .error e => retryError st operation e now
            | .ok res =>
              retryFinish { st with labelCache := res.cache } index operation
                (batchProcess operation.failedUids
                  (actionApi operation.action env))
                now operation.failedUids
        else
          retryFinish st index operation ⟨0, 0, []⟩ now []

/-! ### Concrete instances used by witnesses and counterexamples -/

/-- Concrete photo-detail fetch: the sample photo carries the single label
`{Name: "Cat", Slug: "cat", ID: 5}`. -/
def demoFetch : String → Except String (List PhotoLabel) :=
  fun _ => .ok [⟨"Cat", "cat", 5⟩]

/-- A store with all four instance-scoped stores empty. -/
def stEmpty : Store := ⟨[], [], [], [], []⟩

/-- Environment for the C2 witness: two selected photos, all calls 200. -/
def envC2 : Env := ⟨.ok ["x1", "x2"], demoFetch, fun _ => 200⟩

/-- The resolution error produced for the absent label "dog". -/
def errDog : String :=
  "Failed to get label ID: Label \"dog\" not found on the photo, cannot determine its ID."

/-- The execution record a completed retry leaves at the head of the
history, once `saveExecutionResult` has stamped its id. -/
def retryRecordOf (op : FailedOperation) (result : BatchResult) (now : Nat) :
    ExecutionRecord :=
  { id := toString now
    action := op.action
    labelName := op.labelName
    totalCount := op.failedUids.length
    successCount := result.successCount
    failedCount := result.failedCount
    failedUids := result.failedUids
    startTime := now
    duration := 0
    error := none
    isRetry := true }

/-- No two failure groups share an `(action, lowercase(labelName))` key. -/
@[reducible] def NoDupKeys (ops : List FailedOperation) : Prop :=
  (ops.map fopKey).Nodup

/-- Invariant of the failure tracker: unique keys, at most 20 groups. -/
@[reducible] def TrackerInv (ops : List FailedOperation) : Prop :=
  NoDupKeys ops ∧ ops.length ≤ 20

/-- The failure group used by the retry witnesses. -/
def fopC3 : FailedOperation := ⟨"add", "cat", ["x3"], 5, 0⟩

/-- Store holding exactly the group `fopC3`. -/
def stC3 : Store := { stEmpty with failedOperations := [fopC3] }

/-- Environment where the data source answers and every call is 200. -/
def envAllOk : Env := ⟨.ok ["x1"], demoFetch, fun _ => 200⟩

/-- Environment whose data source is unreachable. -/
def envDown : Env := ⟨.error "boom", demoFetch, fun _ => 200⟩

/-- An existing failure group that has been retried three times. -/
def c5Old : FailedOperation := ⟨"add", "Cat", ["x1"], 5, 3⟩

/-- A later non-retry failure report for the same key. -/
def c5New : FailedOperation := ⟨"add", "cat", ["x2"], 9, 0⟩

/-- The decimal digit characters of `n`, most significant first — the
digit list underlying `Nat.repr` (and hence `Date.now().toString()`). -/
def natDigits (n : Nat) : List Char :=
  if _h : n < 10 then [Nat.digitChar n]
  else natDigits (n / 10) ++ [Nat.digitChar (n % 10)]
decreasing_by exact Nat.div_lt_self (by omega) (by omega)

/-- A dummy execution record for the C7 witness. -/
def recC7 : ExecutionRecord :=
  ⟨"", "add", "cat", 1, 1, 0, [], 0, 0, none, false⟩

/-- A full history of 50 records for the C7 witness. -/
def histC7 : List ExecutionRecord := List.replicate 50 recC7

/-! ## Supporting lemmas -/

/-- The accumulator of `batchProcess` counts successes and failures of the
processed segment on top of its initial contents. -/
theorem batch_foldl_spec (apiFn : String → Except String Unit) :
    ∀ (uids : List String) (acc : BatchResult),
      uids.foldl (batchStep apiFn) acc =
        ⟨acc.successCount + (uids.filter fun u => exceptOk (apiFn u)).length,
         acc.failedCount + (uids.filter fun u => !exceptOk (apiFn u)).length,
         acc.failedUids ++ uids.filter fun u => !exceptOk (apiFn u)⟩
  | [], acc => by simp
  | uid :: rest, acc => by
    cases h : apiFn uid with
    | ok v =>
      have hstep : batchStep apiFn acc uid =
          { acc with successCount := acc.successCount + 1 } := by
        simp [batchStep, h]
      simp only [List.foldl_cons, hstep, batch_foldl_spec apiFn rest,
        List.filter_cons, h, exceptOk, Bool.not_true, Bool.false_eq_true,
        if_false, if_true, List.length_cons, BatchResult.mk.injEq,
        and_true, true_and]
      omega
    | error e =>
      have hstep : batchStep apiFn acc uid =
          { acc with
              failedCount := acc.failedCount + 1
              failedUids := acc.failedUids ++ [uid] } := by
        simp [batchStep, h]
      simp [List.foldl_cons, hstep, batch_foldl_spec apiFn rest,
        List.filter_cons, h, exceptOk, BatchResult.mk.injEq,
        List.append_assoc, List.singleton_append]
      omega

/-- Closed form of `batchProcess`. -/
theorem batchProcess_eq (uids : List String)
    (apiFn : String → Except String Unit) :
    batchProcess uids apiFn =
      ⟨(uids.filter fun u => exceptOk (apiFn u)).length,
       (uids.filter fun u => !exceptOk (apiFn u)).length,
       uids.filter fun u => !exceptOk (apiFn u)⟩ := by
  simpa [batchProcess] using batch_foldl_spec apiFn uids ⟨0, 0, []⟩

/-- `saveExecutionResult` always prepends the freshly-stamped record and
keeps the 49 most recent previous ones. -/
theorem saveExecutionResult_eq (r : ExecutionRecord) (now : Nat)
    (history : List ExecutionRecord) :
    saveExecutionResult r now history =
      { r with id := toString now } :: history.take 49 := by
  rw [saveExecutionResult, show (50 : Nat) = 49 + 1 from rfl,
    List.take_succ_cons]

/-! ## Claims -/

/-- C1: for every batch of N identifiers run through `batchProcess`, the
aggregate satisfies `successCount + failedCount = N` and
`failedUids.length = failedCount`; moreover every identifier contributes
exactly according to its own call's outcome (successes are all counted and
failures are all collected), so a per-item failure never aborts the
remaining calls and the dispatcher accounts for every settled call. -/
theorem c1_batch_aggregate (uids : List String)
    (apiFn : String → Except String Unit) :
    (batchProcess uids apiFn).successCount +
        (batchProcess uids apiFn).failedCount = uids.length ∧
    (batchProcess uids apiFn).failedUids.length =
        (batchProcess uids apiFn).failedCount ∧
    (batchProcess uids apiFn).successCount =
        (uids.filter fun u => exceptOk (apiFn u)).length ∧
    (batchProcess uids apiFn).failedUids =
        uids.filter fun u => !exceptOk (apiFn u) := by
  rw [batchProcess_eq]
  refine ⟨?_, rfl, rfl, rfl⟩
  simpa using
    (@List.length_eq_length_filter_add String uids
      (fun u => exceptOk (apiFn u))).symm

/-- C8: a per-item success increments `successCount` and any rejection
increments `failedCount` and appends the identifier, where `addLabel`
rejects exactly the non-2xx statuses while `removeLabel` additionally
accepts 404 ("label already absent") as a success. -/
theorem c8_item_outcomes (uids : List String) (statusOf : String → Nat) :
    (∀ s, exceptOk (addLabel s) = httpOk s) ∧
    (∀ s, exceptOk (removeLabel s) = (httpOk s || s == 404)) ∧
    (batchProcess uids fun u => removeLabel (statusOf u)).successCount =
      (uids.filter fun u => httpOk (statusOf u) || statusOf u == 404).length ∧
    (batchProcess uids fun u => removeLabel (statusOf u)).failedCount =
      (uids.filter fun u =>
        !(httpOk (statusOf u) || statusOf u == 404)).length ∧
    (batchProcess uids fun u => removeLabel (statusOf u)).failedUids =
      uids.filter fun u => !(httpOk (statusOf u) || statusOf u == 404) := by
  have hadd : ∀ s, exceptOk (addLabel s) = httpOk s := by
    intro s
    by_cases h : httpOk s <;> simp [addLabel, h, exceptOk]
  have hrem : ∀ s, exceptOk (removeLabel s) = (httpOk s || s == 404) := by
    intro s
    by_cases h : httpOk s <;> by_cases h4 : s = 404 <;>
      simp [removeLabel, h, h4, exceptOk]
  refine ⟨hadd, hrem, ?_, ?_, ?_⟩ <;>
    · rw [batchProcess_eq]
      simp only [hrem]

/-- C2: for a "remove" batch, if the single up-front label-id resolution
(done with the batch's first identifier) fails, zero delete calls are
issued, the stores other than the history are untouched, and the recorded
execution has `successCount = 0`, `failedCount = 0` and `error`
populated. -/
theorem c2_remove_resolution_failure (rawLabel : String) (now : Nat)
    (env : Env) (st : Store) (uids : List String) (firstUid : String)
    (rest : List String) (e : String)
    (hTrim : (jsTrim rawLabel).isEmpty = false)
    (hData : env.dataSource = .ok uids)
    (hUids : uids = firstUid :: rest)
    (hRes : getLabelId (jsTrim rawLabel) firstUid st.labelCache env.photoFetch =
      .error e) :
    (handleAction "remove" rawLabel now env st).calls = [] ∧
    (handleAction "remove" rawLabel now env st).store.failedOperations =
      st.failedOperations ∧
    (handleAction "remove" rawLabel now env st).store.recentLabels =
      st.recentLabels ∧
    (handleAction "remove" rawLabel now env st).store.allLabels =
      st.allLabels ∧
    (handleAction "remove" rawLabel now env st).store.labelCache =
      st.labelCache ∧
    (handleAction "remove" rawLabel now env st).store.executionHistory =
      { errorRecord "remove" (jsTrim rawLabel) uids.length e now with
          id := toString now } :: st.executionHistory.take 49 ∧
    (errorRecord "remove" (jsTrim rawLabel) uids.length e now).successCount = 0 ∧
    (errorRecord "remove" (jsTrim rawLabel) uids.length e now).failedCount = 0 ∧
    (errorRecord "remove" (jsTrim rawLabel) uids.length e now).error = some e := by
  subst hUids
  simp only [handleAction, hTrim, Bool.false_eq_true, if_false, hData, hRes,
    handleActionError, saveExecutionResult_eq, errorRecord]
  simp

/-- Witness for C2 at a concrete input: removing "dog" when the sample
photo only carries "Cat". -/
theorem c2_remove_resolution_failure_witness :
    (handleAction "remove" "dog" 100 envC2 stEmpty).calls = [] ∧
    (handleAction "remove" "dog" 100 envC2 stEmpty).store.failedOperations =
      stEmpty.failedOperations ∧
    (handleAction "remove" "dog" 100 envC2 stEmpty).store.recentLabels =
      stEmpty.recentLabels ∧
    (handleAction "remove" "dog" 100 envC2 stEmpty).store.allLabels =
      stEmpty.allLabels ∧
    (handleAction "remove" "dog" 100 envC2 stEmpty).store.labelCache =
      stEmpty.labelCache ∧
    (handleAction "remove" "dog" 100 envC2 stEmpty).store.executionHistory =
      { errorRecord "remove" (jsTrim "dog") (["x1", "x2"] : List String).length
          errDog 100 with id := toString 100 }
        :: stEmpty.executionHistory.take 49 ∧
    (errorRecord "remove" (jsTrim "dog") (["x1", "x2"] : List String).length
      errDog 100).successCount = 0 ∧
    (errorRecord "remove" (jsTrim "dog") (["x1", "x2"] : List String).length
      errDog 100).failedCount = 0 ∧
    (errorRecord "remove" (jsTrim "dog") (["x1", "x2"] : List String).length
      errDog 100).error = some errDog :=
  c2_remove_resolution_failure "dog" 100 envC2 stEmpty ["x1", "x2"] "x1"
    ["x2"] errDog rfl rfl rfl rfl

/-- Behaviour of the common tail of a retry that reached its batch: group
removal or in-place update, and the stamped `isRetry` record. -/
theorem retryFinish_spec (st : Store) (index : Nat) (op : FailedOperation)
    (result : BatchResult) (now : Nat) (calls : List String) :
    (retryFinish st index op result now calls).calls = calls ∧
    (result.failedUids.isEmpty = true →
      (retryFinish st index op result now calls).store.failedOperations =
        st.failedOperations.eraseIdx index) ∧
    (result.failedUids.isEmpty = false →
      (retryFinish st index op result now calls).store.failedOperations =
        st.failedOperations.set index
          { op with
              failedUids := result.failedUids
              retryCount := op.retryCount + 1
              timestamp := now }) ∧
    (retryFinish st index op result now calls).store.executionHistory =
      retryRecordOf op result now :: st.executionHistory.take 49 := by
  cases h : result.failedUids.isEmpty <;>
    simp [retryFinish, h, saveExecutionResult_eq, retryRecordOf]

/-- C3: a retry re-runs the batch over exactly the group's `failedUids`;
on full success the group is removed from the tracker, on partial success
it is updated in place with the new `failedUids` and `retryCount + 1`, and
in either case a record with `isRetry = true` is prepended to the
execution history. -/
theorem c3_retry_group_lifecycle (index now : Nat) (env : Env) (st : Store)
    (op : FailedOperation) (uids0 : List String)
    (hGet : st.failedOperations[index]? = some op)
    (hNe : op.failedUids.isEmpty = false)
    (hData : env.dataSource = .ok uids0)
    (hAct : op.action = "add" ∨
      (op.action = "remove" ∧ ∃ r, getLabelId op.labelName
        (op.failedUids.headD "") st.labelCache env.photoFetch =
          Except.ok r)) :
    (retryFailedOperation index now env st).calls = op.failedUids ∧
    ((batchProcess op.failedUids (actionApi op.action env)).failedUids.isEmpty
        = true →
      (retryFailedOperation index now env st).store.failedOperations =
        st.failedOperations.eraseIdx index) ∧
    ((batchProcess op.failedUids (actionApi op.action env)).failedUids.isEmpty
        = false →
      (retryFailedOperation index now env st).store.failedOperations =
        st.failedOperations.set index
          { op with
              failedUids :=
                (batchProcess op.failedUids (actionApi op.action env)).failedUids
              retryCount := op.retryCount + 1
              timestamp := now }) ∧
    (retryFailedOperation index now env st).store.executionHistory =
      retryRecordOf op (batchProcess op.failedUids (actionApi op.action env))
          now :: st.executionHistory.take 49 ∧
    (retryRecordOf op (batchProcess op.failedUids (actionApi op.action env))
        now).isRetry = true := by
  rcases hAct with hAdd | ⟨hRem, r, hRes⟩
  · have hmain : retryFailedOperation index now env st =
        retryFinish st index op
          (batchProcess op.failedUids (actionApi op.action env)) now
          op.failedUids := by
      simp [retryFailedOperation, hGet, hNe, hData, hAdd]
    rcases retryFinish_spec st index op
        (batchProcess op.failedUids (actionApi op.action env)) now
        op.failedUids with ⟨h1, h2, h3, h4⟩
    rw [hmain]
    exact ⟨h1, h2, h3, h4, rfl⟩
  · obtain ⟨fu, rest, hfu⟩ : ∃ fu rest, op.failedUids = fu :: rest := by
      cases h : op.failedUids with
      | nil => rw [h] at hNe; simp at hNe
      | cons a l => exact ⟨a, l, rfl⟩
    rw [hfu] at hRes
    simp only [List.headD_cons] at hRes
    have hmain : retryFailedOperation index now env st =
        retryFinish { st with labelCache := r.cache } index op
          (batchProcess op.failedUids (actionApi op.action env)) now
          op.failedUids := by
      simp [retryFailedOperation, hGet, hNe, hData, hRem, hfu, hRes]
    rcases retryFinish_spec { st with labelCache := r.cache } index op
        (batchProcess op.failedUids (actionApi op.action env)) now
        op.failedUids with ⟨h1, h2, h3, h4⟩
    rw [hmain]
    exact ⟨h1, h2, h3, h4, rfl⟩

/-- Witness for C3 at a concrete input: retrying the group `fopC3` with
every call now succeeding removes the group and records the retry. -/
theorem c3_retry_group_lifecycle_witness :
    (retryFailedOperation 0 200 envAllOk stC3).calls = fopC3.failedUids ∧
    ((batchProcess fopC3.failedUids (actionApi fopC3.action envAllOk)).failedUids.isEmpty
        = true →
      (retryFailedOperation 0 200 envAllOk stC3).store.failedOperations =
        stC3.failedOperations.eraseIdx 0) ∧
    ((batchProcess fopC3.failedUids (actionApi fopC3.action envAllOk)).failedUids.isEmpty
        = false →
      (retryFailedOperation 0 200 envAllOk stC3).store.failedOperations =
        stC3.failedOperations.set 0
          { fopC3 with
              failedUids :=
                (batchProcess fopC3.failedUids
                  (actionApi fopC3.action envAllOk)).failedUids
              retryCount := fopC3.retryCount + 1
              timestamp := 200 }) ∧
    (retryFailedOperation 0 200 envAllOk stC3).store.executionHistory =
      retryRecordOf fopC3
          (batchProcess fopC3.failedUids (actionApi fopC3.action envAllOk))
          200 :: stC3.executionHistory.take 49 ∧
    (retryRecordOf fopC3
        (batchProcess fopC3.failedUids (actionApi fopC3.action envAllOk))
        200).isRetry = true :=
  c3_retry_group_lifecycle 0 200 envAllOk stC3 fopC3 ["x1"] rfl rfl rfl
    (Or.inl rfl)

/-- C10: when a retry fails before its batch settles (the data-source
fetch throws, or a "remove" retry's label-id resolution throws), the
failure-group store is left entirely unchanged — the targeted group keeps
its previous fields — no per-item call is issued, and a record with
`isRetry = true`, `successCount = 0` and `error` populated is still
prepended to the execution history. -/
theorem c10_failed_retry_atomic (index now : Nat) (env : Env) (st : Store)
    (op : FailedOperation) (e : String)
    (hGet : st.failedOperations[index]? = some op)
    (hNe : op.failedUids.isEmpty = false)
    (hFail : env.dataSource = .error e ∨
      ((∃ uids0, env.dataSource = .ok uids0) ∧ op.action = "remove" ∧
        getLabelId op.labelName (op.failedUids.headD "") st.labelCache
          env.photoFetch = .error e)) :
    (retryFailedOperation index now env st).store.failedOperations =
      st.failedOperations ∧
    (retryFailedOperation index now env st).calls = [] ∧
    (retryFailedOperation index now env st).store.executionHistory =
      { retryErrorRecord op e now with id := toString now }
        :: st.executionHistory.take 49 ∧
    (retryErrorRecord op e now).isRetry = true ∧
    (retryErrorRecord op e now).successCount = 0 ∧
    (retryErrorRecord op e now).error = some e := by
  have hfin : (retryError st op e now).store.failedOperations =
      st.failedOperations ∧
      (retryError st op e now).calls = [] ∧
      (retryError st op e now).store.executionHistory =
        { retryErrorRecord op e now with id := toString now }
          :: st.executionHistory.take 49 := by
    simp [retryError, saveExecutionResult_eq]
  rcases hFail with hData | ⟨⟨uids0, hData⟩, hRem, hRes⟩
  · have hmain : retryFailedOperation index now env st =
        retryError st op e now := by
      simp [retryFailedOperation, hGet, hNe, hData]
    rw [hmain]
    exact ⟨hfin.1, hfin.2.1, hfin.2.2, rfl, rfl, rfl⟩
  · obtain ⟨fu, rest, hfu⟩ : ∃ fu rest, op.failedUids = fu :: rest := by
      cases h : op.failedUids with
      | nil => rw [h] at hNe; simp at hNe
      | cons a l => exact ⟨a, l, rfl⟩
    rw [hfu] at hRes
    simp only [List.headD_cons] at hRes
    have hmain : retryFailedOperation index now env st =
        retryError st op e now := by
      simp [retryFailedOperation, hGet, hNe, hData, hRem, hfu, hRes]
    rw [hmain]
    exact ⟨hfin.1, hfin.2.1, hfin.2.2, rfl, rfl, rfl⟩

/-- Witness for C10 at a concrete input: retrying `fopC3` while the data
source is unreachable leaves the group untouched yet records the
attempt. -/
theorem c10_failed_retry_atomic_witness :
    (retryFailedOperation 0 300 envDown stC3).store.failedOperations =
      stC3.failedOperations ∧
    (retryFailedOperation 0 300 envDown stC3).calls = [] ∧
    (retryFailedOperation 0 300 envDown stC3).store.executionHistory =
      { retryErrorRecord fopC3 "boom" 300 with id := toString 300 }
        :: stC3.executionHistory.take 49 ∧
    (retryErrorRecord fopC3 "boom" 300).isRetry = true ∧
    (retryErrorRecord fopC3 "boom" 300).successCount = 0 ∧
    (retryErrorRecord fopC3 "boom" 300).error = some "boom" :=
  c10_failed_retry_atomic 0 300 envDown stC3 fopC3 "boom" rfl rfl
    (Or.inl rfl)

/-- Setting an index to the value it already holds is the identity. -/
theorem set_getElem?_eq {α : Type} {l : List α} {i : Nat} {a : α}
    (h : l[i]? = some a) : l.set i a = l := by
  induction l generalizing i with
  | nil => simp at h
  | cons b t ih =>
    cases i with
    | zero =>
      simp only [List.getElem?_cons_zero, Option.some.injEq] at h
      simp [h]
    | succ n =>
      have h' : t[n]? = some a := by simpa using h
      show b :: t.set n a = b :: t
      rw [ih h']

/-- The `saveFailedOperation` search predicate holds exactly on groups
with the same key. -/
theorem sameKeyAs_iff (fo op : FailedOperation) :
    sameKeyAs fo op = true ↔ fopKey op = fopKey fo := by
  simp [sameKeyAs, fopKey, Prod.ext_iff, and_comm]

/-- `NoDupKeys` survives taking a prefix. -/
theorem NoDupKeys.take {ops : List FailedOperation} (h : NoDupKeys ops)
    (n : Nat) : NoDupKeys (ops.take n) :=
  List.Nodup.sublist ((List.take_sublist n ops).map fopKey) h

/-- `NoDupKeys` survives a same-key in-place replacement. -/
theorem NoDupKeys.set {ops : List FailedOperation} {i : Nat}
    {a b : FailedOperation} (h : NoDupKeys ops) (hget : ops[i]? = some a)
    (hkey : fopKey b = fopKey a) : NoDupKeys (ops.set i b) := by
  have hmap : (ops.set i b).map fopKey = ops.map fopKey := by
    rw [List.map_set]
    rw [hkey]
    exact set_getElem?_eq (by simp [hget])
  show ((ops.set i b).map fopKey).Nodup
  rw [hmap]
  exact h

/-- `saveFailedOperation` preserves the tracker invariant. -/
theorem saveFailedOperation_inv (fo : FailedOperation)
    (ops : List FailedOperation) (h : TrackerInv ops) :
    TrackerInv (saveFailedOperation fo ops) := by
  unfold saveFailedOperation
  cases hF : ops.findIdx? (sameKeyAs fo) with
  | none =>
    have hnotin : fopKey fo ∉ ops.map fopKey := by
      rw [List.findIdx?_eq_none_iff] at hF
      intro hmem
      obtain ⟨x, hx, hfx⟩ := List.mem_map.mp hmem
      have hfalse := hF x hx
      rw [show sameKeyAs fo x = true from (sameKeyAs_iff fo x).mpr hfx]
        at hfalse
      simp at hfalse
    refine ⟨?_, ?_⟩
    · refine NoDupKeys.take ?_ 20
      show (fopKey fo :: ops.map fopKey).Nodup
      exact List.nodup_cons.mpr ⟨hnotin, h.1⟩
    · simp [List.length_take]
  | some i =>
    obtain ⟨hi, hkey, -⟩ := List.findIdx?_eq_some_iff_getElem.mp hF
    refine ⟨?_, ?_⟩
    · refine NoDupKeys.take ?_ 20
      have hgete : ops[i]? = some (ops.get ⟨i, hi⟩) :=
        List.getElem?_eq_getElem hi
      exact NoDupKeys.set h.1 hgete
        ((sameKeyAs_iff fo (ops.get ⟨i, hi⟩)).mp hkey).symm
    · simp [List.length_take]

/-- `removeFailedOperation` preserves the tracker invariant. -/
theorem removeFailedOperation_inv (action labelName : String)
    (ops : List FailedOperation) (h : TrackerInv ops) :
    TrackerInv (removeFailedOperation action labelName ops) := by
  refine ⟨List.Nodup.sublist ((List.filter_sublist _).map fopKey) h.1, ?_⟩
  exact le_trans (List.length_filter_le _ _) h.2

/-- Every path through `retryFailedOperation` leaves the failure groups
unchanged, erases the indexed group, or replaces it by a same-key group. -/
theorem retry_fops_shape (index now : Nat) (env : Env) (st : Store) :
    (retryFailedOperation index now env st).store.failedOperations =
      st.failedOperations ∨
    (retryFailedOperation index now env st).store.failedOperations =
      st.failedOperations.eraseIdx index ∨
    ∃ op newUids,
      st.failedOperations[index]? = some op ∧
      (retryFailedOperation index now env st).store.failedOperations =
        st.failedOperations.set index
          { op with
              failedUids := newUids
              retryCount := op.retryCount + 1
              timestamp := now } := by
  unfold retryFailedOperation
  cases hGet : st.failedOperations[index]? with
  | none => left; rfl
  | some op =>
    by_cases hNe : op.failedUids.isEmpty
    · left; simp [hNe]
    · cases hData : env.dataSource with
      | error e =>
        left
        simp [hNe, retryError]
      | ok uids =>
        by_cases hAdd : op.action == "add"
        · simp only [hNe, hAdd, if_true, Bool.false_eq_true, if_false,
            retryFinish]
          cases hb : (batchProcess op.failedUids
              (actionApi op.action env)).failedUids.isEmpty
          · right; right
            refine ⟨op,
              (batchProcess op.failedUids (actionApi op.action env)).failedUids,
              rfl, ?_⟩
            simp [hb]
          · right; left
            simp [hb]
        · by_cases hRem : op.action == "remove"
          · cases hfu : op.failedUids with
            | nil => rw [hfu] at hNe; simp at hNe
            | cons fu rest =>
              simp only [hNe, hAdd, hRem, Bool.false_eq_true, if_false,
                if_true, hfu]
              cases hRes : getLabelId op.labelName fu st.labelCache
                  env.photoFetch with
              | error e => left; simp [retryError]
              | ok r =>
                simp only [retryFinish]
                cases hb : (batchProcess (fu :: rest)
                    (actionApi op.action env)).failedUids.isEmpty
                · right; right
                  refine ⟨op,
                    (batchProcess (fu :: rest)
                      (actionApi op.action env)).failedUids, rfl, ?_⟩
                  simp [hb, hfu]
                · right; left
                  simp [hb]
          · simp only [hNe, hAdd, hRem, Bool.false_eq_true, if_false,
              retryFinish]
            right; left
            simp

/-- `retryFailedOperation` preserves the tracker invariant. -/
theorem retryFailedOperation_inv (index now : Nat) (env : Env) (st : Store)
    (h : TrackerInv st.failedOperations) :
    TrackerInv ((retryFailedOperation index now env st).store.failedOperations) := by
  rcases retry_fops_shape index now env st with heq | heq | ⟨op, newUids, hGet, heq⟩ <;>
    rw [heq]
  · exact h
  · exact ⟨List.Nodup.sublist ((List.eraseIdx_sublist _ _).map fopKey) h.1,
      le_trans (List.eraseIdx_sublist _ _).length_le h.2⟩
  · exact ⟨NoDupKeys.set h.1 hGet rfl, by simpa using h.2⟩

/-- C4: the failure-group store invariant — at most one group per
`(action, lowercase(labelName))` key and at most 20 groups — is preserved
by reporting a failure, clearing a failure and retrying a group; and a
new-key report into a full store of 20 groups evicts exactly the oldest
group. -/
theorem c4_tracker_invariant (fo : FailedOperation)
    (action labelName : String) (index now : Nat) (env : Env) (st : Store)
    (h : TrackerInv st.failedOperations) :
    TrackerInv (saveFailedOperation fo st.failedOperations) ∧
    TrackerInv (removeFailedOperation action labelName st.failedOperations) ∧
    TrackerInv ((retryFailedOperation index now env st).store.failedOperations) ∧
    (st.failedOperations.length = 20 →
      st.failedOperations.findIdx? (sameKeyAs fo) = none →
      saveFailedOperation fo st.failedOperations =
        fo :: st.failedOperations.dropLast) := by
  refine ⟨saveFailedOperation_inv fo _ h,
    removeFailedOperation_inv action labelName _ h,
    retryFailedOperation_inv index now env st h, ?_⟩
  intro hlen hnone
  have hsave : saveFailedOperation fo st.failedOperations =
      (fo :: st.failedOperations).take 20 := by
    unfold saveFailedOperation
    rw [hnone]
  rw [hsave, List.dropLast_eq_take, hlen]
  show (fo :: st.failedOperations).take (19 + 1) =
    fo :: st.failedOperations.take (20 - 1)
  rw [List.take_succ_cons]

/-- Witness for C4 at a concrete input: the single-group store `stC3`. -/
theorem c4_tracker_invariant_witness :
    TrackerInv (saveFailedOperation fopC3 stC3.failedOperations) ∧
    TrackerInv (removeFailedOperation "add" "cat" stC3.failedOperations) ∧
    TrackerInv ((retryFailedOperation 0 7 envAllOk stC3).store.failedOperations) ∧
    (stC3.failedOperations.length = 20 →
      stC3.failedOperations.findIdx? (sameKeyAs fopC3) = none →
      saveFailedOperation fopC3 stC3.failedOperations =
        fopC3 :: stC3.failedOperations.dropLast) :=
  c4_tracker_invariant fopC3 "add" "cat" 0 7 envAllOk stC3
    ⟨by decide, by decide⟩

/-- C5 counterexample: a non-retry failure report for an existing key
(`c5New`, carrying `retryCount = 0`) replaces the whole stored group, so
the group's `retryCount` drops from 3 to 0 — the claim that a non-retry
report leaves `retryCount` unchanged is false. -/
theorem c5_counterexample :
    saveFailedOperation c5New [c5Old] = [c5New] ∧
    c5Old.retryCount = 3 ∧
    (saveFailedOperation c5New [c5Old]).map FailedOperation.retryCount =
      [0] ∧
    ¬ ((saveFailedOperation c5New [c5Old]).map FailedOperation.retryCount =
        [c5Old.retryCount]) := by
  refine ⟨by decide, rfl, by decide, by decide⟩

/-- C5 corrected: a failure report for an existing key replaces the
stored group wholesale — every field, `retryCount` included, is taken from
the incoming report — and the non-retry path of `handleAction` always
supplies `retryCount = 0`, so an existing group's `retryCount` is reset
rather than preserved (`retryCount` is bumped only by the separate
in-place update of the retry path). -/
theorem c5_report_replaces_group (fo : FailedOperation)
    (ops : List FailedOperation) (i : Nat) (st : Store)
    (action labelName : String) (uids : List String) (result : BatchResult)
    (now : Nat)
    (hF : ops.findIdx? (sameKeyAs fo) = some i)
    (hFail : result.failedUids.length > 0) :
    saveFailedOperation fo ops = (ops.set i fo).take 20 ∧
    (ops.set i fo)[i]? = some fo ∧
    (handleActionFinish st action labelName uids result now).store.failedOperations =
      saveFailedOperation ⟨action, labelName, result.failedUids, now, 0⟩
        st.failedOperations := by
  refine ⟨?_, ?_, ?_⟩
  · unfold saveFailedOperation
    rw [hF]
  · have hi : i < ops.length :=
      (List.findIdx?_eq_some_iff_findIdx_eq.mp hF).1
    simp [hi]
  · simp [handleActionFinish, hFail]

/-- Witness for C5's corrected statement at the concrete groups `c5Old`
and `c5New`. -/
theorem c5_report_replaces_group_witness :
    saveFailedOperation c5New [c5Old] = ([c5Old].set 0 c5New).take 20 ∧
    ([c5Old].set 0 c5New)[0]? = some c5New ∧
    (handleActionFinish stEmpty "add" "cat" ["x1"] ⟨0, 1, ["x1"]⟩
        9).store.failedOperations =
      saveFailedOperation ⟨"add", "cat", ["x1"], 9, 0⟩
        stEmpty.failedOperations :=
  c5_report_replaces_group c5New [c5Old] 0 stEmpty "add" "cat" ["x1"]
    ⟨0, 1, ["x1"]⟩ 9 (by decide) (by decide)

/-- C6 counterexample: after resolving "Cat" from an empty cache (one
fetch, cached under the exact spelling "Cat"), resolving "cat" misses the
cache (`lookupCache` is a case-sensitive property access), performs a
second network fetch (`fetched = true`) and stores a second cache entry —
the second resolution does need a network fetch and does not hit the same
cache entry. -/
theorem c6_counterexample :
    getLabelId "Cat" "u1" [] demoFetch =
      .ok ⟨5, [("Cat", 5)], true⟩ ∧
    getLabelId "cat" "u1" [("Cat", 5)] demoFetch =
      .ok ⟨5, [("Cat", 5), ("cat", 5)], true⟩ ∧
    lookupCache [("Cat", 5)] "cat" = none := by
  refine ⟨rfl, rfl, rfl⟩

/-- C6 corrected: recording used labels is case-insensitive — "Cat" and
"cat" yield identical recent/all-label updates — but the label cache is
keyed case-sensitively by the entered spelling: a cached id is reused only
under the exact stored key, and a differently-cased spelling of an
already-cached label re-fetches and adds a separate cache entry
(case-insensitive matching applies only to the photo's label list during
the fetch). -/
theorem c6_case_handling (recent all : List String)
    (cache : List (String × Nat)) (name uid : String) (labelId : Nat)
    (fetch : String → Except String (List PhotoLabel))
    (hHit : lookupCache cache name = some labelId) (hNz : labelId ≠ 0) :
    addToRecentLabels "Cat" recent all = addToRecentLabels "cat" recent all ∧
    getLabelId name uid cache fetch = .ok ⟨labelId, cache, false⟩ ∧
    getLabelId "cat" "u1" [("Cat", 5)] demoFetch =
      .ok ⟨5, [("Cat", 5), ("cat", 5)], true⟩ := by
  refine ⟨rfl, ?_, rfl⟩
  unfold getLabelId
  rw [hHit]
  simp [hNz]

/-- Witness for C6's corrected statement: a cache holding ("Cat", 5) is
hit for the exact spelling "Cat" without a fetch. -/
theorem c6_case_handling_witness :
    addToRecentLabels "Cat" [] [] = addToRecentLabels "cat" [] [] ∧
    getLabelId "Cat" "u1" [("Cat", 5)] demoFetch =
      .ok ⟨5, [("Cat", 5)], false⟩ ∧
    getLabelId "cat" "u1" [("Cat", 5)] demoFetch =
      .ok ⟨5, [("Cat", 5), ("cat", 5)], true⟩ :=
  c6_case_handling [] [] [("Cat", 5)] "Cat" "u1" 5 demoFetch rfl
    (by decide)

/-- C9 counterexample: with no resolvable origin, the get operation does
not fail — it silently returns the supplied default value (here 42),
contradicting the claim that neither get nor set returns a substitute
value. -/
theorem c9_counterexample :
    getInstanceData "executionHistory" (42 : Nat)
      (.error "Could not determine current instance") (fun _ => none) =
      42 := rfl

/-- C9 corrected: when the active origin cannot be determined,
`setInstanceData` propagates the instance-resolution error, but
`getInstanceData` catches it and returns the supplied default value
instead of failing. -/
theorem c9_get_set_on_error {α : Type} (baseKey : String) (d v : α)
    (e : String) (storage : String → Option α) :
    getInstanceData baseKey d (.error e) storage = d ∧
    setInstanceData baseKey v (.error e) storage = .error e :=
  ⟨rfl, rfl⟩

/-! ## Decimal representation of the record ids -/

/-- `natDigits` never produces the empty list. -/
theorem natDigits_ne_nil (n : Nat) : natDigits n ≠ [] := by
  unfold natDigits
  split <;> simp

/-- With enough fuel, core's `Nat.toDigitsCore` at base 10 produces the
digits of `n` in front of the accumulator. -/
theorem toDigitsCore_eq_natDigits :
    ∀ (fuel n : Nat) (acc : List Char), n < fuel →
      Nat.toDigitsCore 10 fuel n acc = natDigits n ++ acc := by
  intro fuel
  induction fuel with
  | zero => intro n acc h; omega
  | succ f ih =>
    intro n acc h
    by_cases h0 : n / 10 = 0
    · have hlt : n < 10 := by omega
      rw [Nat.toDigitsCore]
      simp only [h0, if_true]
      rw [natDigits]
      simp [hlt, Nat.mod_eq_of_lt hlt]
    · have hge : ¬ n < 10 := by omega
      have hf : n / 10 < f := by omega
      rw [Nat.toDigitsCore]
      simp only [h0, if_false]
      rw [ih (n / 10) (Nat.digitChar (n % 10) :: acc) hf]
      conv_rhs => rw [natDigits]
      simp [hge, List.append_assoc]

/-- `Nat.digitChar` is injective below 10. -/
theorem digitChar_injOn (a b : Nat) (ha : a < 10) (hb : b < 10)
    (h : Nat.digitChar a = Nat.digitChar b) : a = b := by
  have key : ∀ x y : Fin 10,
      Nat.digitChar x.val = Nat.digitChar y.val → x = y := by decide
  exact congrArg Fin.val (key ⟨a, ha⟩ ⟨b, hb⟩ h)

/-- The last digit character of `natDigits n` is the units digit. -/
theorem natDigits_getLast? (n : Nat) :
    (natDigits n).getLast? = some (Nat.digitChar (n % 10)) := by
  by_cases h : n < 10
  · rw [natDigits]
    simp [h, Nat.mod_eq_of_lt h]
  · rw [natDigits]
    simp [h, List.getLast?_concat]

/-- Dropping the last digit of `natDigits n` gives the digits of
`n / 10`. -/
theorem natDigits_dropLast (n : Nat) :
    (natDigits n).dropLast = if n < 10 then [] else natDigits (n / 10) := by
  by_cases h : n < 10
  · rw [natDigits]
    simp [h]
  · rw [natDigits]
    simp [h]

/-- Distinct naturals have distinct digit lists. -/
theorem natDigits_injective :
    ∀ m n : Nat, natDigits m = natDigits n → m = n := by
  intro m
  induction m using Nat.strong_induction_on with
  | _ m ih =>
    intro n heq
    have hlast := congrArg List.getLast? heq
    rw [natDigits_getLast?, natDigits_getLast?] at hlast
    have hmod : m % 10 = n % 10 :=
      digitChar_injOn _ _ (Nat.mod_lt _ (by omega))
        (Nat.mod_lt _ (by omega)) (Option.some.inj hlast)
    have hdrop := congrArg List.dropLast heq
    rw [natDigits_dropLast, natDigits_dropLast] at hdrop
    by_cases hm : m < 10 <;> by_cases hn : n < 10
    · rw [Nat.mod_eq_of_lt hm, Nat.mod_eq_of_lt hn] at hmod
      exact hmod
    · rw [if_pos hm, if_neg hn] at hdrop
      exact absurd hdrop.symm (natDigits_ne_nil _)
    · rw [if_neg hm, if_pos hn] at hdrop
      exact absurd hdrop (natDigits_ne_nil _)
    · rw [if_neg hm, if_neg hn] at hdrop
      have hdiv : m / 10 = n / 10 :=
        ih (m / 10) (Nat.div_lt_self (by omega) (by omega)) _ hdrop
      omega

/-- `Nat.repr` is the string of `natDigits`. -/
theorem natRepr_eq (n : Nat) : Nat.repr n = (natDigits n).asString := by
  show (Nat.toDigitsCore 10 (n + 1) n []).asString = _
  rw [toDigitsCore_eq_natDigits (n + 1) n [] (Nat.lt_succ_self n)]
  simp

/-- `toString` on `Nat` (the id assigned by `saveExecutionResult`) is
injective: distinct clock readings give distinct ids. -/
theorem toString_nat_injective (m n : Nat) (h : toString m = toString n) :
    m = n := by
  have h1 : Nat.repr m = Nat.repr n := h
  rw [natRepr_eq, natRepr_eq] at h1
  exact natDigits_injective _ _ (congrArg String.data h1)

/-- C7: `saveExecutionResult` stamps the record with the time-based id
`toString now` (distinct record times give distinct ids), prepends it to
the log and truncates to the 50 most recent records; recording into a log
already holding 50 records evicts exactly the oldest record. -/
theorem c7_recorder (r : ExecutionRecord) (now n m : Nat)
    (history : List ExecutionRecord)
    (hFull : history.length = 50) (hnm : n ≠ m) :
    saveExecutionResult r now history =
      { r with id := toString now } :: history.take 49 ∧
    ({ r with id := toString now } : ExecutionRecord).id = toString now ∧
    toString n ≠ toString m ∧
    saveExecutionResult r now history =
      { r with id := toString now } :: history.dropLast ∧
    (saveExecutionResult r now history).length = 50 := by
  refine ⟨saveExecutionResult_eq r now history, rfl,
    fun h => hnm (toString_nat_injective n m h), ?_, ?_⟩
  · rw [saveExecutionResult_eq, List.dropLast_eq_take, hFull]
  · rw [saveExecutionResult_eq]
    simp [List.length_take, hFull]

/-- Witness for C7: recording a 51st record into the full history
`histC7`. -/
theorem c7_recorder_witness :
    saveExecutionResult recC7 123 histC7 =
      { recC7 with id := toString 123 } :: histC7.take 49 ∧
    ({ recC7 with id := toString 123 } : ExecutionRecord).id =
      toString 123 ∧
    toString 1 ≠ toString 2 ∧
    saveExecutionResult recC7 123 histC7 =
      { recC7 with id := toString 123 } :: histC7.dropLast ∧
    (saveExecutionResult recC7 123 histC7).length = 50 :=
  c7_recorder recC7 123 1 2 histC7 (by decide) (by decide)

end PhotoprismHelper
